import Mathlib

/-!
Verification of `memorydelaysmtphandler` (src/memorydelaysmtphandler/memorydelaysmtphandler.py).

The module defines `MemoryDelayHandler`, a subclass of the Python standard
library class `logging.handlers.MemoryHandler`, and `MemoryDelaySmtpHandler`,
a subclass of `MemoryDelayHandler` that targets an SMTP transport and merges
buffered records into one message.

The embedding below models:
  - log records (`LogRecord`) with the fields the code touches
    (msg, args, formatter, levelno, created);
  - the handler state (`Handler`) with the configuration stored by
    `__init__` (lines 23-65) and the synchronization flags of the code
    (`_event_new_emit`, `_event_delay_flush`, `_sync_backgroud_flush`,
    `_thread_closing`) plus whether the background thread is alive;
  - the flush paths: the inherited `logging.handlers.MemoryHandler.flush`
    (pass-through, embedded from CPython logging/handlers.py), the merge path
    `_flush_to_append_buffer_buffer` (lines 119-143), and the overriding
    dispatcher `flush` (lines 96-116);
  - `emit` (lines 67-93), `close` (lines 147-159 plus the inherited
    `MemoryHandler.close`), and the constructors;
  - a discrete-time scheduler (`sched`) for the quiescent, race-free
    interleaving of one producer with the background task
    `_task_auto_flush_buffer` (lines 163-196), used for the temporal claims.

Durations (the `delay` and `timeout` parameters, Python floats) are modeled
as integers; every claim under test involves only comparisons and sums of
durations, which the integer model reproduces faithfully.

Downstream sink behavior is abstracted by a predicate `fails : LogRecord →
Bool` saying on which records the call `target.handle(record)` raises, and by
a formatter `fmt : LogRecord → String` standing for `self.format(record)`;
both are external collaborators per the specification.
-/

/-- A logging record, with the fields that the handler code reads or writes:
`msg` (the message), `args` (formatting arguments, cleared by the merge
flush), `formatter` (a record-specific formatter override, cleared by the
merge flush), `levelno` (numeric severity) and `created` (timestamp). -/
structure LogRecord where
  msg : String
  args : Option String
  formatter : Option String
  levelno : Nat
  created : Int
deriving DecidableEq, Repr

/-- The downstream target handler. `smtp` is the `logging.handlers.SMTPHandler`
built by `MemoryDelaySmtpHandler.__init__` (lines 208-209) from the mail
parameters; `generic` is any other handler exposing `handle(record)`. -/
inductive Target where
  | smtp (mailhost : String) (fromaddr : String) (toaddrs : List String)
      (subject : String) (credentials : Option (String × String))
      (secure : Option (List String)) (timeout : Int)
  | generic (id : Nat)
deriving DecidableEq, Repr

/-- State of a `MemoryDelayHandler` instance.

`capacity`, `flushLevel`, `target`, `flushOnClose` are stored by the parent
`logging.handlers.MemoryHandler.__init__` call on line 40 (the parent stores
them without any validation). `delay` is `self._delay` (line 45).
`buffer` is the inherited record buffer. `append_buffer` is
`self._append_buffer` (line 57): `true` selects the merge encode policy.
`threadStarted` records that line 65 started `_thread_auto_flush_buffer`.
`eventNewEmit`, `eventDelayFlush` model the two `threading.Event` flags;
`syncBackgroundFlush` models `self._sync_backgroud_flush`; `threadClosing`
models `self._thread_closing`; `bgAlive` is whether the background thread
has not yet terminated. -/
structure Handler where
  capacity : Int
  flushLevel : Nat
  target : Option Target
  flushOnClose : Bool
  delay : Option Int
  buffer : List LogRecord
  append_buffer : Bool
  threadStarted : Bool
  eventNewEmit : Bool
  eventDelayFlush : Bool
  syncBackgroundFlush : Bool
  threadClosing : Bool
  bgAlive : Bool
deriving DecidableEq, Repr

/-- `MemoryDelayHandler.__init__` (lines 23-65).

Line 40 calls `MemoryHandler.__init__`, which (per CPython
logging/handlers.py) stores `capacity`, `flushLevel`, `target` and
`flushOnClose` without validating any of them. Line 42 then asserts
`(delay==None) or (not (delay<0))`; a failing assert raises
`AssertionError`, so construction fails exactly when the delay is a
negative number. Line 65 starts the background thread unconditionally. -/
def MemoryDelayHandler_init (capacity : Int) (delay : Option Int)
    (flushLevel : Nat) (target : Option Target) (flushOnClose : Bool) :
    Except String Handler :=
  if (match delay with | none => false | some d => decide (d < 0)) then
    Except.error "AssertionError: delay parameter must be positive."
  else
    Except.ok
      { capacity := capacity
        flushLevel := flushLevel
        target := target
        flushOnClose := flushOnClose
        delay := delay
        buffer := []
        append_buffer := false
        threadStarted := true
        eventNewEmit := false
        eventDelayFlush := false
        syncBackgroundFlush := false
        threadClosing := false
        bgAlive := true }

/-- Standard severity levels of the Python logging module. -/
def logging_DEBUG : Nat := 10

/-- Standard severity level INFO. -/
def logging_INFO : Nat := 20

/-- Standard severity level WARNING. -/
def logging_WARNING : Nat := 30

/-- Standard severity level ERROR. -/
def logging_ERROR : Nat := 40

/-- Standard severity level CRITICAL, the highest predefined level. -/
def logging_CRITICAL : Nat := 50

/-- Written from the words of the specification (section 6): the highest
severity level of the logging module, which the spec says is the default
severity threshold. Among the predefined levels, CRITICAL = 50 is highest. -/
def highestSeverityLevel : Nat := logging_CRITICAL

/-- Default value of the `flushLevel` parameter of
`MemoryDelayHandler.__init__` (line 23: `flushLevel=logging.ERROR`). -/
def MemoryDelayHandler_default_flushLevel : Nat := logging_ERROR

/-- Default `capacity` of `MemoryDelaySmtpHandler.__init__` (line 206). -/
def MemoryDelaySmtpHandler_default_capacity : Int := 32

/-- Default `delay` of `MemoryDelaySmtpHandler.__init__` (line 206:
`delay=10.0` seconds). -/
def MemoryDelaySmtpHandler_default_delay : Option Int := some 10

/-- Default `flushLevel` of `MemoryDelaySmtpHandler.__init__` (line 206:
`flushLevel=logging.CRITICAL`). -/
def MemoryDelaySmtpHandler_default_flushLevel : Nat := logging_CRITICAL

/-- Default `timeout` of `MemoryDelaySmtpHandler.__init__` (line 206:
`timeout=5.0`). -/
def MemoryDelaySmtpHandler_default_timeout : Int := 5

/-- `MemoryDelaySmtpHandler.__init__` (lines 205-213): builds an
`SMTPHandler` from the mail parameters (lines 208-209), initialises the
parent `MemoryDelayHandler` with that target and `flushOnClose=True`
(lines 211-212), then sets `self._append_buffer = True` (line 213),
selecting the merge encode policy. -/
def MemoryDelaySmtpHandler_init (mailhost : String) (fromaddr : String)
    (toaddrs : List String) (subject : String)
    (credentials : Option (String × String)) (secure : Option (List String))
    (timeout : Int) (capacity : Int) (delay : Option Int) (flushLevel : Nat) :
    Except String Handler :=
  let smtpHandlerOutput : Target :=
    Target.smtp mailhost fromaddr toaddrs subject credentials secure timeout
  match MemoryDelayHandler_init capacity delay flushLevel
      (some smtpHandlerOutput) true with
  | Except.error e => Except.error e
  | Except.ok h => Except.ok { h with append_buffer := true }

/-- One pass of `for record in self.buffer: self.target.handle(record)`
(CPython `MemoryHandler.flush`). Returns the records actually handed to the
target before a raising call, in call order, and whether a call raised:
records before the first record on which `handle` raises are delivered, the
raising record and everything after it are not. -/
def sinkDeliver (fails : LogRecord → Bool) : List LogRecord →
    List LogRecord × Bool
  | [] => ([], false)
  | r :: rs =>
    if fails r then ([], true)
    else
      let rest := sinkDeliver fails rs
      (r :: rest.1, rest.2)

/-- Result of a flush call: the handler state afterwards, the records passed
to `target.handle` (in call order), and whether an exception propagated. -/
structure FlushResult where
  handler : Handler
  handled : List LogRecord
  raised : Bool
deriving Repr

/-- The inherited `logging.handlers.MemoryHandler.flush` (CPython
logging/handlers.py), the pass-through encode path:

    self.acquire()
    try:
        if self.target:
            for record in self.buffer:
                self.target.handle(record)
            self.buffer.clear()
    finally:
        self.release()

Note the order: `self.buffer.clear()` runs only after every `handle` call
has returned; if one raises, the buffer keeps all its records. -/
def memoryHandler_flush (fails : LogRecord → Bool) (h : Handler) :
    FlushResult :=
  match h.target with
  | none => { handler := h, handled := [], raised := false }
  | some _ =>
    let d := sinkDeliver fails h.buffer
    if d.2 then { handler := h, handled := d.1, raised := true }
    else { handler := { h with buffer := [] }, handled := d.1, raised := false }

/-- The text accumulated in `stream_append` by lines 129-131: each buffered
record is formatted with `self.format` and written followed by the
terminator, a single newline. -/
def joinedText (fmt : LogRecord → String) (buf : List LogRecord) : String :=
  String.join (buf.map (fun r => fmt r ++ "\n"))

/-- The record object after the in-place mutation of lines 134-137: the
first buffered record with its msg replaced by the joined text and its args
and formatter cleared. -/
def mergedRecord (fmt : LogRecord → String) (r0 : LogRecord)
    (rest : List LogRecord) : LogRecord :=
  { r0 with msg := joinedText fmt (r0 :: rest), args := none,
            formatter := none }

/-- `MemoryDelayHandler._flush_to_append_buffer_buffer` (lines 119-143), the
merge encode path. With a target present it formats every buffered record
into one string (lines 129-131), then takes `record = self.buffer[0]` and
mutates that record object in place: `record.msg = stream_append.getvalue()`,
`record.args = None`, `record.formatter = None` (lines 134-137); it hands
this same object to `self.target.handle` (line 139) and only then clears the
buffer (line 140). Because the mutation happens before the `handle` call, a
raising `handle` leaves the buffer holding the mutated first record followed
by the untouched rest. With no target nothing at all happens (line 127
guards the whole body, including the clear). -/
def flush_to_append_buffer_buffer (fmt : LogRecord → String)
    (fails : LogRecord → Bool) (h : Handler) : FlushResult :=
  match h.target with
  | none => { handler := h, handled := [], raised := false }
  | some _ =>
    match h.buffer with
    | [] => { handler := { h with buffer := [] }, handled := [], raised := false }
    | r0 :: rest =>
      let merged : LogRecord :=
        { r0 with msg := joinedText fmt (r0 :: rest), args := none,
                  formatter := none }
      if fails merged then
        { handler := { h with buffer := merged :: rest }, handled := [],
          raised := true }
      else
        { handler := { h with buffer := [] }, handled := [merged],
          raised := false }

/-- The overriding `MemoryDelayHandler.flush` (lines 96-116). With at least
one buffered record it dispatches to the merge path when the merge policy is
on and more than one record is buffered, else to the inherited pass-through
flush (lines 106-110). When `_lock_sync` was already held by the caller
(the `emit` path), line 116 sets `_sync_backgroud_flush = True` afterwards;
an exception from the dispatched flush propagates before that line runs. -/
def MemoryDelayHandler_flush (fmt : LogRecord → String)
    (fails : LogRecord → Bool) (h : Handler) (lockAlreadyHeld : Bool) :
    FlushResult :=
  let res :=
    if 1 ≤ h.buffer.length then
      if h.append_buffer ∧ 1 < h.buffer.length then
        flush_to_append_buffer_buffer fmt fails h
      else
        memoryHandler_flush fails h
    else { handler := h, handled := [], raised := false }
  if res.raised then res
  else if lockAlreadyHeld then
    { res with handler := { res.handler with syncBackgroundFlush := true } }
  else res

/-- Outcome of an `emit` call as seen by its caller: it returns normally, it
propagates an exception, or it blocks forever (never returns). -/
inductive EmitOutcome where
  | ret (h : Handler)
  | raiseErr (h : Handler)
  | blockForever (h : Handler)
deriving Repr

/-- Whether the `emit` call propagated an exception to its caller. -/
def EmitOutcome.isErr : EmitOutcome → Bool
  | EmitOutcome.raiseErr _ => true
  | _ => false

/-- Whether the `emit` call returned normally. -/
def EmitOutcome.isRet : EmitOutcome → Bool
  | EmitOutcome.ret _ => true
  | _ => false

/-- `MemoryDelayHandler.emit` (lines 67-93). It acquires `_lock_sync`, sets
`_event_new_emit` (line 76), and calls the inherited
`logging.handlers.MemoryHandler.emit` (line 77), which appends the record to
the buffer and, when `shouldFlush` holds (buffer length has reached capacity
or the record severity reached `flushLevel`), calls `self.flush()` — the
overriding flush above — with `_lock_sync` already held. An exception from
that flush propagates out of `emit` (no handler in between). Afterwards, if
`_sync_backgroud_flush` is set, `emit` sets `_event_delay_flush`, releases
the lock and waits at `self._barrier` (a `threading.Barrier(2)`, line 84)
for the background thread; when the background thread is alive it answers
the rendezvous, lines 85-90 clear the flags and both events, and `emit`
returns after the second barrier; when the background thread has terminated
the barrier can never be completed and the call blocks forever. -/
def MemoryDelayHandler_emit (fmt : LogRecord → String)
    (fails : LogRecord → Bool) (h : Handler) (r : LogRecord) : EmitOutcome :=
  let h1 : Handler := { h with eventNewEmit := true }
  let h2 : Handler := { h1 with buffer := h1.buffer ++ [r] }
  let afterEmit : FlushResult :=
    if h2.capacity ≤ (h2.buffer.length : Int) ∨ h2.flushLevel ≤ r.levelno then
      MemoryDelayHandler_flush fmt fails h2 true
    else { handler := h2, handled := [], raised := false }
  if afterEmit.raised then EmitOutcome.raiseErr afterEmit.handler
  else
    let h3 := afterEmit.handler
    if h3.syncBackgroundFlush then
      if h3.bgAlive then
        EmitOutcome.ret
          { h3 with syncBackgroundFlush := false, eventNewEmit := false,
                    eventDelayFlush := false }
      else EmitOutcome.blockForever { h3 with eventDelayFlush := true }
    else EmitOutcome.ret h3

/-- `MemoryDelayHandler.close` (lines 147-159) followed by the inherited
`logging.handlers.MemoryHandler.close`. Lines 152-157 set
`_sync_backgroud_flush`, `_thread_closing` and both events under the lock;
the join on line 158 waits for the background thread, which observes
`_thread_closing` and exits its loop (lines 170, 193), so after the join the
thread is terminated and none of the flags set here are ever reset. The
inherited close then flushes when `flushOnClose` is set (through the
overriding `flush`, lock not held, so the flag logic of line 116 is not
triggered), sets `self.target = None`, and `BufferingHandler.close` performs
one more `self.flush()`, a no-op since the target is gone. -/
def MemoryDelayHandler_close (fmt : LogRecord → String)
    (fails : LogRecord → Bool) (h : Handler) : Handler :=
  let h1 : Handler :=
    { h with syncBackgroundFlush := true, threadClosing := true,
             eventNewEmit := true, eventDelayFlush := true }
  let h2 : Handler := { h1 with bgAlive := false }
  let h3 : Handler :=
    if h2.flushOnClose then (MemoryDelayHandler_flush fmt fails h2 false).handler
    else h2
  let h4 : Handler := { h3 with target := none }
  (MemoryDelayHandler_flush fmt fails h4 false).handler

/-- Final field values of the record objects that were in the buffer when a
merge flush with a target ran: lines 134-137 mutate the first buffered
record object in place (`record = self.buffer[0]; record.msg = ...;
record.args = None; record.formatter = None`); the remaining record objects
are only read (formatted, line 130). `buffer.clear()` on line 140 drops the
buffer references but the objects live on with these values for any other
holder (for example other handlers attached to the same logger). -/
def mergeFlushRecordObjects (fmt : LogRecord → String)
    (buf : List LogRecord) : List LogRecord :=
  match buf with
  | [] => []
  | r0 :: rest =>
    { r0 with msg := joinedText fmt (r0 :: rest), args := none,
              formatter := none } :: rest

/-- Phase of the background thread `_task_auto_flush_buffer` (lines 163-196)
between scheduler steps: blocked in `self._event_new_emit.wait()` (line 174),
or blocked in `self._event_delay_flush.wait(self._delay)` (line 177) with the
absolute time at which that wait times out — `none` when `_delay` is `None`,
in which case `Event.wait(None)` never times out and only a set of the event
(a synchronous flush or close) can wake it. -/
inductive BgPhase where
  | waitNewEmit
  | waitDelay (deadline : Option Int)
deriving DecidableEq, Repr

/-- One flush delivered to the downstream sink during a scheduled run: the
time it happened, whether the background thread performed it (the timeout
branch of lines 177-189) as opposed to a synchronous flush from `emit`
(lines 77-91 via `shouldFlush`), and the records of the batch in buffer
order. -/
structure FlushEvent where
  time : Int
  fromBg : Bool
  records : List LogRecord
deriving DecidableEq, Repr

/-- State of the quiescent one-producer discrete-time model: the
configuration the scheduler consults, the buffer, the `_event_new_emit`
flag, the background thread phase, and the flushes delivered so far. -/
structure SchedState where
  capacity : Int
  flushLevel : Nat
  delay : Option Int
  buffer : List LogRecord
  eventNewEmit : Bool
  bg : BgPhase
  flushes : List FlushEvent
deriving DecidableEq, Repr

/-- The scheduler state right after `MemoryDelayHandler.__init__`: empty
buffer, both events clear, the background thread blocked at line 174. -/
def toSchedState (h : Handler) : SchedState :=
  { capacity := h.capacity, flushLevel := h.flushLevel, delay := h.delay,
    buffer := h.buffer, eventNewEmit := h.eventNewEmit,
    bg := BgPhase.waitNewEmit, flushes := [] }

/-- One `emit(record)` call at time `t` in the quiescent model (lines 67-93
plus the inherited `MemoryHandler.emit`): append the record and set
`_event_new_emit`; if the buffer has reached capacity or the record severity
reached `flushLevel` (`shouldFlush` of CPython `MemoryHandler`), the
synchronous flush of lines 106-116 runs with the lock held, line 116 sets
`_sync_backgroud_flush`, and lines 80-91 then complete the rendezvous with
the background thread — it wakes from whichever wait it is in because
`_event_delay_flush` is set (line 82), takes the `need_wait_barrier` path
(lines 190-196), and after the double barrier both events are clear and the
thread is back at the top of its loop waiting at line 174. Without a
synchronous flush the record only extends the buffer: if the background
thread was blocked at line 174 it wakes now (the event was just set) and
enters the delay wait of line 177, whose timeout is `t + D`; if it was
already inside the delay wait of an earlier record, setting the
already-handled event changes nothing — the running countdown is not
restarted. -/
def doEmit (t : Int) (r : LogRecord) (s : SchedState) : SchedState :=
  let buf := s.buffer ++ [r]
  if s.capacity ≤ (buf.length : Int) ∨ s.flushLevel ≤ r.levelno then
    { s with buffer := [], eventNewEmit := false, bg := BgPhase.waitNewEmit,
             flushes := s.flushes ++
               [{ time := t, fromBg := false, records := buf }] }
  else
    { s with buffer := buf, eventNewEmit := true,
             bg := match s.bg with
                   | BgPhase.waitNewEmit =>
                     BgPhase.waitDelay (s.delay.map (fun d => t + d))
                   | ph => ph }

/-- The timeout branch of the background thread (lines 177-189), fired when
`self._event_delay_flush.wait(self._delay)` times out at the deadline: under
the lock, a non-empty buffer is flushed; in the quiescent model no
synchronous flush is pending, so `_sync_backgroud_flush` is false and the
thread clears `_event_new_emit` (line 188) and loops back to the wait at
line 174. -/
def fireDeadline (dl : Int) (s : SchedState) : SchedState :=
  if 1 ≤ s.buffer.length then
    { s with buffer := [], eventNewEmit := false, bg := BgPhase.waitNewEmit,
             flushes := s.flushes ++
               [{ time := dl, fromBg := true, records := s.buffer }] }
  else
    { s with eventNewEmit := false, bg := BgPhase.waitNewEmit }

/-- Discrete-time run of the quiescent one-producer system: `emits` is the
remaining producer trace (time, record), in increasing time order. At each
step the earlier of the next emit and the pending background deadline fires
(the deadline first on a tie). When no emits remain and the background
thread holds no finite deadline the system is idle and the run stops; `fuel`
bounds the number of steps (a run with `emits.length + 2` fuel reaches the
idle state for the traces considered here). -/
def sched (fuel : Nat) (emits : List (Int × LogRecord)) (s : SchedState) :
    SchedState :=
  match fuel with
  | 0 => s
  | fuel + 1 =>
    match s.bg, emits with
    | BgPhase.waitDelay (some dl), [] => sched fuel [] (fireDeadline dl s)
    | BgPhase.waitDelay (some dl), (t, r) :: rest =>
      if dl ≤ t then sched fuel emits (fireDeadline dl s)
      else sched fuel rest (doEmit t r s)
    | _, (t, r) :: rest => sched fuel rest (doEmit t r s)
    | _, [] => s

/-! Concrete fixtures used by witnesses and counterexamples. -/

/-- A low-severity record with message text a. -/
def recA : LogRecord :=
  { msg := "a", args := none, formatter := none, levelno := logging_INFO,
    created := 0 }

/-- A low-severity record with message text b. -/
def recB : LogRecord :=
  { msg := "b", args := none, formatter := none, levelno := logging_INFO,
    created := 1 }

/-- A low-severity record with message text c. -/
def recC : LogRecord :=
  { msg := "c", args := none, formatter := none, levelno := logging_INFO,
    created := 2 }

/-- A formatter that returns the raw message text of the record. -/
def fmtMsg : LogRecord → String := fun r => r.msg

/-- A downstream sink whose `handle` never raises. -/
def noFail : LogRecord → Bool := fun _ => false

/-- A downstream sink whose `handle` raises exactly on records whose message
text is b. -/
def failOnB : LogRecord → Bool := fun r => r.msg == "b"

/-- A pass-through handler holding the two records a and b. -/
def hTwo : Handler :=
  { capacity := 5, flushLevel := logging_ERROR,
    target := some (Target.generic 0), flushOnClose := true, delay := none,
    buffer := [recA, recB], append_buffer := false, threadStarted := true,
    eventNewEmit := false, eventDelayFlush := false,
    syncBackgroundFlush := false, threadClosing := false, bgAlive := true }

/-- A merge-policy handler holding the three records a, b, c. -/
def hThree : Handler :=
  { hTwo with buffer := [recA, recB, recC], append_buffer := true }

/-- The handler state built by `MemoryDelayHandler(3, delay=2, flushLevel=40,
target=None, flushOnClose=True)`. -/
def hDelay2 : Handler :=
  { capacity := 3, flushLevel := logging_ERROR, target := none,
    flushOnClose := true, delay := some 2, buffer := [],
    append_buffer := false, threadStarted := true, eventNewEmit := false,
    eventDelayFlush := false, syncBackgroundFlush := false,
    threadClosing := false, bgAlive := true }

/-- The handler state built by `MemoryDelayHandler(4, delay=None,
flushLevel=40, target=None, flushOnClose=True)`. -/
def hNoDelay : Handler :=
  { capacity := 4, flushLevel := logging_ERROR, target := none,
    flushOnClose := true, delay := none, buffer := [],
    append_buffer := false, threadStarted := true, eventNewEmit := false,
    eventDelayFlush := false, syncBackgroundFlush := false,
    threadClosing := false, bgAlive := true }

/-! C3 — construction validation. -/

/-- C3 counterexample: the claim says construction fails whenever the
capacity parameter is less than 1, but `MemoryDelayHandler(0, delay=None)`
succeeds — line 40 hands capacity to the parent class, which stores it
without validation, and the only check in `__init__` is the delay assert on
line 42. The stored capacity is 0, not clamped. -/
theorem C3_counterexample_capacity_not_validated :
    ∃ h : Handler,
      MemoryDelayHandler_init 0 none MemoryDelayHandler_default_flushLevel
          none true = Except.ok h
      ∧ h.capacity = 0 := by
  exact ⟨_, rfl, rfl⟩

/-- C3 (amended): construction fails (an `AssertionError` from line 42
reaches the caller) exactly when the delay is a negative number; a `None`
or non-negative delay is accepted; the capacity is not validated at all —
any value, including values below 1, is accepted and stored unchanged
(never clamped), as are the delay and flush level. -/
theorem C3_amended_only_delay_validated (c : Int) (d : Option Int) (fl : Nat)
    (tg : Option Target) (foc : Bool) :
    (∀ x : Int, d = some x → x < 0 →
      MemoryDelayHandler_init c d fl tg foc =
        Except.error "AssertionError: delay parameter must be positive.")
    ∧ ((d = none ∨ ∃ x : Int, d = some x ∧ 0 ≤ x) →
      ∃ h : Handler, MemoryDelayHandler_init c d fl tg foc = Except.ok h
        ∧ h.capacity = c ∧ h.delay = d ∧ h.flushLevel = fl) := by
  constructor
  · rintro x rfl hx
    simp [MemoryDelayHandler_init, hx]
  · rintro (rfl | ⟨x, rfl, hx⟩)
    · exact ⟨{ capacity := c, flushLevel := fl, target := tg,
               flushOnClose := foc, delay := none, buffer := [],
               append_buffer := false, threadStarted := true,
               eventNewEmit := false, eventDelayFlush := false,
               syncBackgroundFlush := false, threadClosing := false,
               bgAlive := true }, rfl, rfl, rfl, rfl⟩
    · have hnx : ¬ x < 0 := Int.not_lt.mpr hx
      refine ⟨{ capacity := c, flushLevel := fl, target := tg,
                flushOnClose := foc, delay := some x, buffer := [],
                append_buffer := false, threadStarted := true,
                eventNewEmit := false, eventDelayFlush := false,
                syncBackgroundFlush := false, threadClosing := false,
                bgAlive := true }, ?_, rfl, rfl, rfl⟩
      simp [MemoryDelayHandler_init, hnx]

/-- C3 witness: the amended theorem applied at capacity 7 with delay -1
(rejected) and with delay 0 (accepted, values stored unchanged). -/
theorem C3_amended_only_delay_validated_witness :
    MemoryDelayHandler_init 7 (some (-1)) logging_ERROR none true =
      Except.error "AssertionError: delay parameter must be positive."
    ∧ ∃ h : Handler,
        MemoryDelayHandler_init 7 (some 0) logging_ERROR none true =
          Except.ok h
        ∧ h.capacity = 7 ∧ h.delay = some 0 ∧ h.flushLevel = logging_ERROR := by
  constructor
  · exact (C3_amended_only_delay_validated 7 (some (-1)) logging_ERROR none
      true).1 (-1) rfl (by decide)
  · exact (C3_amended_only_delay_validated 7 (some 0) logging_ERROR none
      true).2 (Or.inr ⟨0, rfl, le_refl 0⟩)

/-! C9 — default severity threshold. -/

/-- C9 counterexample: the claim says an omitted severity threshold defaults
to the highest severity level, but `MemoryDelayHandler.__init__` (line 23)
defaults `flushLevel` to `logging.ERROR` = 40, which is below
`logging.CRITICAL` = 50, the highest predefined level. -/
theorem C9_counterexample_default_not_highest :
    ∃ h : Handler,
      MemoryDelayHandler_init 5 none MemoryDelayHandler_default_flushLevel
          none true = Except.ok h
      ∧ h.flushLevel ≠ highestSeverityLevel := by
  exact ⟨_, rfl, by decide⟩

/-- C9 (amended): the omitted severity threshold of `MemoryDelayHandler`
defaults to ERROR (40), strictly below the highest severity level; only the
SMTP subtype `MemoryDelaySmtpHandler` defaults its threshold to CRITICAL
(50), the highest predefined level (line 206). -/
theorem C9_amended_default_flushLevels :
    (∃ h : Handler,
      MemoryDelayHandler_init 5 none MemoryDelayHandler_default_flushLevel
          none true = Except.ok h
      ∧ h.flushLevel = logging_ERROR)
    ∧ (∃ h : Handler,
      MemoryDelaySmtpHandler_init "smtp.example.org" "noreply" ["dest"]
          "subject" none none MemoryDelaySmtpHandler_default_timeout
          MemoryDelaySmtpHandler_default_capacity
          MemoryDelaySmtpHandler_default_delay
          MemoryDelaySmtpHandler_default_flushLevel = Except.ok h
      ∧ h.flushLevel = highestSeverityLevel)
    ∧ logging_ERROR < highestSeverityLevel := by
  refine ⟨⟨_, rfl, rfl⟩, ⟨_, rfl, rfl⟩, by decide⟩

/-! C10 — configuration of the SMTP subtype. -/

/-- C10: constructing `MemoryDelaySmtpHandler` yields a handler with the
merge encode policy on (`_append_buffer = True`, line 213), flush-on-close
true (line 212), and an `SMTPHandler` target built from the given mail
parameters (lines 208-209) — for any capacity, delay and flush level that
let construction succeed — and its omitted parameters default to capacity
32, delay 10.0 seconds and severity threshold CRITICAL (line 206). -/
theorem C10_smtp_subtype_config (mh fa : String) (ta : List String)
    (sub : String) (cr : Option (String × String))
    (sec : Option (List String)) :
    (∃ h : Handler,
      MemoryDelaySmtpHandler_init mh fa ta sub cr sec
          MemoryDelaySmtpHandler_default_timeout
          MemoryDelaySmtpHandler_default_capacity
          MemoryDelaySmtpHandler_default_delay
          MemoryDelaySmtpHandler_default_flushLevel = Except.ok h
      ∧ h.append_buffer = true ∧ h.flushOnClose = true
      ∧ h.target = some (Target.smtp mh fa ta sub cr sec 5)
      ∧ h.capacity = 32 ∧ h.delay = some 10
      ∧ h.flushLevel = logging_CRITICAL)
    ∧ ∀ (tmo cap : Int) (dl : Option Int) (fl : Nat) (h2 : Handler),
        MemoryDelaySmtpHandler_init mh fa ta sub cr sec tmo cap dl fl =
          Except.ok h2 →
        h2.append_buffer = true ∧ h2.flushOnClose = true
        ∧ h2.target = some (Target.smtp mh fa ta sub cr sec tmo) := by
  constructor
  · exact ⟨_, rfl, rfl, rfl, rfl, rfl, rfl, rfl⟩
  · intro tmo cap dl fl h2 hinit
    unfold MemoryDelaySmtpHandler_init MemoryDelayHandler_init at hinit
    split at hinit
    · exact absurd hinit (by simp)
    · simp only [Except.ok.injEq] at hinit
      subst hinit
      exact ⟨rfl, rfl, rfl⟩

/-- C10 witness: the universally quantified part of the configuration
theorem applied at concrete mail and buffering parameters. -/
theorem C10_smtp_subtype_config_witness :
    ∃ h2 : Handler,
      MemoryDelaySmtpHandler_init "smtp.example.org" "noreply" ["dest"]
          "subject" none none 5 3 (some 1) logging_CRITICAL = Except.ok h2
      ∧ h2.append_buffer = true ∧ h2.flushOnClose = true
      ∧ h2.target = some (Target.smtp "smtp.example.org" "noreply" ["dest"]
          "subject" none none 5) := by
  refine ⟨_, rfl, ?_⟩
  exact (C10_smtp_subtype_config "smtp.example.org" "noreply" ["dest"]
    "subject" none none).2 5 3 (some 1) logging_CRITICAL _ rfl

/-! Helper lemmas about the delivery loop. -/

/-- With a never-raising sink the delivery loop hands over every buffered
record and raises nothing. -/
theorem sinkDeliver_noFail (l : List LogRecord) :
    sinkDeliver (fun _ => false) l = (l, false) := by
  induction l with
  | nil => rfl
  | cons r rs ih => simp [sinkDeliver, ih]

/-- Records handed over by the delivery loop all come from the buffer. -/
theorem sinkDeliver_mem (fails : LogRecord → Bool) (l : List LogRecord)
    (r : LogRecord) (hr : r ∈ (sinkDeliver fails l).1) : r ∈ l := by
  induction l with
  | nil => simp [sinkDeliver] at hr
  | cons x xs ih =>
    by_cases hx : fails x
    · simp [sinkDeliver, hx] at hr
    · simp only [sinkDeliver, hx, Bool.false_eq_true, if_false,
        List.mem_cons] at hr
      rcases hr with rfl | hr
      · exact List.mem_cons_self _ _
      · exact List.mem_cons_of_mem _ (ih hr)

/-! Branch equations for the flush paths. -/

/-- The pass-through flush with a target present: deliver in order, raise if
the sink raises, clear the buffer only when every call returned. -/
theorem memoryHandler_flush_eq (fails : LogRecord → Bool) (h : Handler)
    (tgt : Target) (htgt : h.target = some tgt) :
    memoryHandler_flush fails h =
      if (sinkDeliver fails h.buffer).2 then
        { handler := h, handled := (sinkDeliver fails h.buffer).1,
          raised := true }
      else
        { handler := { h with buffer := [] },
          handled := (sinkDeliver fails h.buffer).1, raised := false } := by
  unfold memoryHandler_flush
  rw [htgt]

/-- The merge flush with a target present and a non-empty buffer. -/
theorem mergeFlush_eq (fmt : LogRecord → String) (fails : LogRecord → Bool)
    (h : Handler) (tgt : Target) (htgt : h.target = some tgt)
    (r0 : LogRecord) (rest : List LogRecord) (hbuf : h.buffer = r0 :: rest) :
    flush_to_append_buffer_buffer fmt fails h =
      if fails { r0 with msg := joinedText fmt (r0 :: rest), args := none, formatter := none } then
        { handler := { h with buffer := { r0 with msg := joinedText fmt (r0 :: rest), args := none, formatter := none } :: rest },
          handled := [], raised := true }
      else
        { handler := { h with buffer := [] },
          handled := [{ r0 with msg := joinedText fmt (r0 :: rest), args := none, formatter := none }],
          raised := false } := by
  unfold flush_to_append_buffer_buffer
  rw [htgt, hbuf]

/-- The dispatcher takes the merge path when the merge policy is on and more
than one record is buffered (line 107). -/
theorem dispatch_merge (fmt : LogRecord → String) (fails : LogRecord → Bool)
    (h : Handler) (lock : Bool) (hm : h.append_buffer = true)
    (hl2 : 1 < h.buffer.length) :
    MemoryDelayHandler_flush fmt fails h lock =
      (if (flush_to_append_buffer_buffer fmt fails h).raised then
        flush_to_append_buffer_buffer fmt fails h
      else if lock then
        { flush_to_append_buffer_buffer fmt fails h with
          handler := { (flush_to_append_buffer_buffer fmt fails h).handler
                       with syncBackgroundFlush := true } }
      else flush_to_append_buffer_buffer fmt fails h) := by
  unfold MemoryDelayHandler_flush
  rw [if_pos (Nat.le_of_lt hl2), if_pos (And.intro hm hl2)]

/-- The dispatcher takes the inherited pass-through flush when the buffer is
non-empty and the merge path is not selected (lines 109-110). -/
theorem dispatch_pass (fmt : LogRecord → String) (fails : LogRecord → Bool)
    (h : Handler) (lock : Bool) (h1 : 1 ≤ h.buffer.length)
    (hnm : ¬(h.append_buffer ∧ 1 < h.buffer.length)) :
    MemoryDelayHandler_flush fmt fails h lock =
      (if (memoryHandler_flush fails h).raised then
        memoryHandler_flush fails h
      else if lock then
        { memoryHandler_flush fails h with
          handler := { (memoryHandler_flush fails h).handler
                       with syncBackgroundFlush := true } }
      else memoryHandler_flush fails h) := by
  unfold MemoryDelayHandler_flush
  rw [if_pos h1, if_neg hnm]

/-- The dispatcher with an empty buffer forwards nothing (line 106). -/
theorem dispatch_empty (fmt : LogRecord → String) (fails : LogRecord → Bool)
    (h : Handler) (lock : Bool) (h0 : h.buffer = []) :
    MemoryDelayHandler_flush fmt fails h lock =
      (if lock then
        { handler := { h with syncBackgroundFlush := true }, handled := [],
          raised := false }
      else { handler := h, handled := [], raised := false }) := by
  unfold MemoryDelayHandler_flush
  have hno : ¬ 1 ≤ h.buffer.length := by rw [h0]; simp
  rw [if_neg hno]
  cases lock <;> simp

/-! C2 — buffer clearing versus sink failure. -/

/-- C2 counterexample: the claim says the buffer is cleared before the
`handle` call is made, so after a flush during which `handle` raised the
flushed records would no longer be buffered and could not be delivered
again. On `hTwo` (records a, b) with a sink raising on b: the flush raises
after delivering a, yet both records are still buffered afterwards (the
clear after the handle loop was never reached), and a second flush with a
recovered sink delivers a a second time. -/
theorem C2_counterexample_cleared_only_after_handle :
    (MemoryDelayHandler_flush fmtMsg failOnB hTwo false).raised = true
    ∧ (MemoryDelayHandler_flush fmtMsg failOnB hTwo false).handled = [recA]
    ∧ (MemoryDelayHandler_flush fmtMsg failOnB hTwo false).handler.buffer
        = [recA, recB]
    ∧ recA ∈ (MemoryDelayHandler_flush fmtMsg noFail
        (MemoryDelayHandler_flush fmtMsg failOnB hTwo false).handler
        false).handled := by
  refine ⟨rfl, rfl, rfl, ?_⟩
  decide

/-- C2 (amended): a flush clears the buffer only after the `handle` calls
have returned. When no call raises, the buffer is empty afterwards; when a
call raises, the batch is still buffered (same number of records, in
particular the buffer is not empty — the state has not been updated when
the error occurs), and every record already handed to the sink before the
raise is handed to it again by a later flush with a recovered sink, so a
sink failure leads to duplicate delivery rather than loss — at-least-once
across retries, not at-most-once. -/
theorem C2_amended_clear_only_after_delivery (fmt : LogRecord → String)
    (fails : LogRecord → Bool) (h : Handler) (lock : Bool) (tgt : Target)
    (htgt : h.target = some tgt) :
    ((MemoryDelayHandler_flush fmt fails h lock).raised = false →
      (MemoryDelayHandler_flush fmt fails h lock).handler.buffer = []
      ∨ h.buffer = [])
    ∧ ((MemoryDelayHandler_flush fmt fails h lock).raised = true →
      (MemoryDelayHandler_flush fmt fails h lock).handler.buffer.length
          = h.buffer.length
      ∧ (MemoryDelayHandler_flush fmt fails h lock).handler.buffer ≠ []
      ∧ ∀ r ∈ (MemoryDelayHandler_flush fmt fails h lock).handled,
          r ∈ (MemoryDelayHandler_flush fmt (fun _ => false)
            (MemoryDelayHandler_flush fmt fails h lock).handler lock).handled) := by
  by_cases hempty : h.buffer = []
  · rw [dispatch_empty fmt fails h lock hempty]
    cases lock <;> simp [hempty]
  · by_cases hmerge : h.append_buffer ∧ 1 < h.buffer.length
    · obtain ⟨r0, rest, hb⟩ := List.exists_cons_of_ne_nil hempty
      rw [dispatch_merge fmt fails h lock hmerge.1 hmerge.2,
        mergeFlush_eq fmt fails h tgt htgt r0 rest hb]
      by_cases hf : fails { r0 with msg := joinedText fmt (r0 :: rest), args := none, formatter := none } = true
      · simp [hf, hb]
      · cases lock <;> simp [hf, hb]
    · have h1 : 1 ≤ h.buffer.length := by
        rcases List.exists_cons_of_ne_nil hempty with ⟨x, xs, hx⟩
        rw [hx]; simp
      rw [dispatch_pass fmt fails h lock h1 hmerge,
        memoryHandler_flush_eq fails h tgt htgt]
      cases hd : (sinkDeliver fails h.buffer).2
      · cases lock <;> simp [hd]
      · simp only [hd, if_true]
        refine ⟨by simp, fun _ => ?_⟩
        refine ⟨trivial, hempty, ?_⟩
        intro r hr
        have hmem := sinkDeliver_mem fails h.buffer r hr
        rw [dispatch_pass fmt (fun _ => false) h lock h1 hmerge,
          memoryHandler_flush_eq (fun _ => false) h tgt htgt,
          sinkDeliver_noFail]
        cases lock <;> simpa using hmem

/-- C2 witness: the amended theorem applied to `hTwo` with the sink that
raises on record b — the failed flush keeps both records buffered and the
record a it already delivered is delivered again by the retry. -/
theorem C2_amended_clear_only_after_delivery_witness :
    (MemoryDelayHandler_flush fmtMsg failOnB hTwo false).handler.buffer.length
        = hTwo.buffer.length
    ∧ (MemoryDelayHandler_flush fmtMsg failOnB hTwo false).handler.buffer ≠ []
    ∧ ∀ r ∈ (MemoryDelayHandler_flush fmtMsg failOnB hTwo false).handled,
        r ∈ (MemoryDelayHandler_flush fmtMsg (fun _ => false)
          (MemoryDelayHandler_flush fmtMsg failOnB hTwo false).handler
          false).handled := by
  exact (C2_amended_clear_only_after_delivery fmtMsg failOnB hTwo false
    (Target.generic 0) rfl).2 rfl

/-! C4 — the merge policy delivers one record with joined text. -/

/-- C4: under the merge encode policy, a flush of a buffer holding two or
more records (with a target whose `handle` does not raise) invokes the
downstream `handle` exactly once, with a record whose message text is the
formatted texts of the buffered records in buffer order, each followed by a
single newline — so with a trailing newline after the last — and the buffer
is empty afterwards. -/
theorem C4_merge_flush_single_joined_record (fmt : LogRecord → String)
    (h : Handler) (lock : Bool) (tgt : Target) (htgt : h.target = some tgt)
    (hab : h.append_buffer = true) (hlen : 2 ≤ h.buffer.length) :
    (MemoryDelayHandler_flush fmt (fun _ => false) h lock).handled.length = 1
    ∧ (MemoryDelayHandler_flush fmt (fun _ => false) h lock).handled.map
        LogRecord.msg = [joinedText fmt h.buffer]
    ∧ (MemoryDelayHandler_flush fmt (fun _ => false) h lock).handler.buffer
        = [] := by
  have hl2 : 1 < h.buffer.length := Nat.lt_of_lt_of_le Nat.one_lt_two hlen
  have hne : h.buffer ≠ [] := by
    intro hcon
    rw [hcon] at hlen
    simp at hlen
  obtain ⟨r0, rest, hb⟩ := List.exists_cons_of_ne_nil hne
  rw [dispatch_merge fmt (fun _ => false) h lock hab hl2,
    mergeFlush_eq fmt (fun _ => false) h tgt htgt r0 rest hb]
  cases lock <;> simp [hb]

/-- C4 witness: flushing the merge-policy handler `hThree` holding the
records a, b, c delivers exactly one record whose message text is
a newline b newline c newline — the joined format of the claim. -/
theorem C4_merge_flush_single_joined_record_witness :
    (MemoryDelayHandler_flush fmtMsg noFail hThree false).handled.length = 1
    ∧ (MemoryDelayHandler_flush fmtMsg noFail hThree false).handled.map
        LogRecord.msg = ["a\nb\nc\n"]
    ∧ (MemoryDelayHandler_flush fmtMsg noFail hThree false).handler.buffer
        = [] := by
  have hres := C4_merge_flush_single_joined_record fmtMsg hThree false
    (Target.generic 0) rfl rfl (by decide)
  unfold noFail
  refine ⟨hres.1, ?_, hres.2.2⟩
  rw [hres.2.1]
  rfl

/-! C7 — record immutability. -/

/-- C7 counterexample: the claim says no operation of the handler modifies
any field of a buffered record, but the merge flush mutates the first
buffered record object in place (lines 134-137): after merging a and b the
first record object carries the joined message text instead of a, and its
args and formatter are cleared; the mutated object is also exactly what is
handed to the sink. -/
theorem C7_counterexample_first_record_mutated :
    mergeFlushRecordObjects fmtMsg [recA, recB] ≠ [recA, recB]
    ∧ (mergeFlushRecordObjects fmtMsg [recA, recB]).head?.map LogRecord.msg
        = some "a\nb\n"
    ∧ recA.msg = "a" := by
  refine ⟨by decide, ?_, rfl⟩
  rfl

/-- C7 (amended): records are not immutable once formatted — a merge flush
with a target mutates the first buffered record in place, replacing its
message with the joined text and clearing its args and formatter override,
while preserving its severity and timestamp and leaving every other
buffered record unchanged; the record handed to the sink is this same
mutated first record, not a fresh copy (observable because after a raising
`handle` the buffer itself holds the mutated object). -/
theorem C7_amended_merge_mutates_in_place (fmt : LogRecord → String)
    (fails : LogRecord → Bool) (h : Handler) (tgt : Target)
    (htgt : h.target = some tgt) (r0 : LogRecord) (rest : List LogRecord)
    (hbuf : h.buffer = r0 :: rest) :
    mergeFlushRecordObjects fmt (r0 :: rest) = mergedRecord fmt r0 rest :: rest
    ∧ (mergedRecord fmt r0 rest).levelno = r0.levelno
    ∧ (mergedRecord fmt r0 rest).created = r0.created
    ∧ (fails (mergedRecord fmt r0 rest) = false →
      (flush_to_append_buffer_buffer fmt fails h).handled
        = [mergedRecord fmt r0 rest])
    ∧ (fails (mergedRecord fmt r0 rest) = true →
      (flush_to_append_buffer_buffer fmt fails h).handler.buffer
        = mergedRecord fmt r0 rest :: rest) := by
  rw [mergeFlush_eq fmt fails h tgt htgt r0 rest hbuf]
  refine ⟨rfl, rfl, rfl, ?_, ?_⟩
  · intro hf
    simp only [mergedRecord] at hf
    simp [hf, mergedRecord]
  · intro hf
    simp only [mergedRecord] at hf
    simp [hf, mergedRecord]

/-- C7 witness: the amended theorem applied to a merge-policy handler
holding a and b, once with a non-raising sink (the mutated record is
delivered) and once with a raising sink (the mutated record is left in the
buffer). -/
theorem C7_amended_merge_mutates_in_place_witness :
    (flush_to_append_buffer_buffer fmtMsg noFail
        { hTwo with append_buffer := true }).handled
      = [mergedRecord fmtMsg recA [recB]]
    ∧ (flush_to_append_buffer_buffer fmtMsg (fun _ => true)
        { hTwo with append_buffer := true }).handler.buffer
      = mergedRecord fmtMsg recA [recB] :: [recB]
    ∧ (mergedRecord fmtMsg recA [recB]).msg = "a\nb\n"
    ∧ recA.msg = "a" := by
  refine ⟨?_, ?_, rfl, rfl⟩
  · exact (C7_amended_merge_mutates_in_place fmtMsg noFail
      { hTwo with append_buffer := true } (Target.generic 0) rfl recA [recB]
      rfl).2.2.2.1 rfl
  · exact (C7_amended_merge_mutates_in_place fmtMsg (fun _ => true)
      { hTwo with append_buffer := true } (Target.generic 0) rfl recA [recB]
      rfl).2.2.2.2 rfl

/-! C6 — emit after close. -/

/-- With no target the inherited flush does nothing: it neither delivers
nor clears (the clear sits inside the `if self.target:` guard). -/
theorem memoryHandler_flush_none (fails : LogRecord → Bool) (h : Handler)
    (htgt : h.target = none) :
    memoryHandler_flush fails h =
      { handler := h, handled := [], raised := false } := by
  unfold memoryHandler_flush
  rw [htgt]

/-- With no target the merge flush does nothing either: line 127 guards the
whole body, including the clear on line 140. -/
theorem mergeFlush_none (fmt : LogRecord → String) (fails : LogRecord → Bool)
    (h : Handler) (htgt : h.target = none) :
    flush_to_append_buffer_buffer fmt fails h =
      { handler := h, handled := [], raised := false } := by
  unfold flush_to_append_buffer_buffer
  rw [htgt]

/-- The dispatcher with no target forwards nothing, raises nothing and
leaves the buffer alone; with the lock held it still sets
the sync flag on line 116. -/
theorem flush_target_none (fmt : LogRecord → String)
    (fails : LogRecord → Bool) (h : Handler) (lock : Bool)
    (htgt : h.target = none) :
    MemoryDelayHandler_flush fmt fails h lock =
      { handler := if lock then { h with syncBackgroundFlush := true } else h,
        handled := [], raised := false } := by
  unfold MemoryDelayHandler_flush
  rw [memoryHandler_flush_none fails h htgt, mergeFlush_none fmt fails h htgt]
  cases lock <;> simp

/-- A flush called without the lock held (line 104 path) changes at most
the buffer: every other handler field is untouched. -/
theorem flush_noLock_handler (fmt : LogRecord → String)
    (fails : LogRecord → Bool) (h : Handler) :
    ∃ b : List LogRecord,
      (MemoryDelayHandler_flush fmt fails h false).handler =
        { h with buffer := b } := by
  by_cases hempty : h.buffer = []
  · rw [dispatch_empty fmt fails h false hempty]
    exact ⟨h.buffer, rfl⟩
  · obtain ⟨r0, rest, hb⟩ := List.exists_cons_of_ne_nil hempty
    by_cases htgn : h.target = none
    · rw [flush_target_none fmt fails h false htgn]
      exact ⟨h.buffer, rfl⟩
    · obtain ⟨tgt, htg⟩ := Option.ne_none_iff_exists'.mp htgn
      by_cases hmerge : h.append_buffer ∧ 1 < h.buffer.length
      · rw [dispatch_merge fmt fails h false hmerge.1 hmerge.2,
          mergeFlush_eq fmt fails h tgt htg r0 rest hb]
        by_cases hf : fails { r0 with msg := joinedText fmt (r0 :: rest), args := none, formatter := none } = true
        · rw [if_pos hf, if_pos rfl]
          exact ⟨_, rfl⟩
        · rw [if_neg hf, if_neg (by simp), if_neg (by simp)]
          exact ⟨_, rfl⟩
      · have h1 : 1 ≤ h.buffer.length := by rw [hb]; simp
        rw [dispatch_pass fmt fails h false h1 hmerge,
          memoryHandler_flush_eq fails h tgt htg]
        cases hd : (sinkDeliver fails h.buffer).2
        · rw [if_neg (by simp), if_neg (by simp), if_neg (by simp)]
          exact ⟨_, rfl⟩
        · rw [if_pos (by rfl), if_pos rfl]
          exact ⟨h.buffer, rfl⟩

/-- Restatement of the previous lemma as a rewriting equation. -/
theorem flush_noLock_handler_eq (fmt : LogRecord → String)
    (fails : LogRecord → Bool) (h : Handler) :
    (MemoryDelayHandler_flush fmt fails h false).handler =
      { h with buffer :=
          (MemoryDelayHandler_flush fmt fails h false).handler.buffer } := by
  obtain ⟨b, hb⟩ := flush_noLock_handler fmt fails h
  rw [hb]

/-- After `close` returns: `_sync_backgroud_flush` is still set (line 153,
never reset because the background thread exits without a rendezvous),
`_thread_closing` is set (line 154), the background thread has terminated
(join, line 158), and the target has been dropped by the inherited close. -/
theorem close_flags (fmt : LogRecord → String) (fails : LogRecord → Bool)
    (h : Handler) :
    (MemoryDelayHandler_close fmt fails h).syncBackgroundFlush = true
    ∧ (MemoryDelayHandler_close fmt fails h).bgAlive = false
    ∧ (MemoryDelayHandler_close fmt fails h).target = none
    ∧ (MemoryDelayHandler_close fmt fails h).threadClosing = true := by
  unfold MemoryDelayHandler_close
  rw [flush_noLock_handler_eq]
  split
  · rw [flush_noLock_handler_eq]
    exact ⟨rfl, rfl, rfl, rfl⟩
  · exact ⟨rfl, rfl, rfl, rfl⟩

/-- An `emit` on a handler whose sync flag is set, whose background thread
has terminated and whose target is gone: the record is appended to the
buffer, no exception is raised, and the call then blocks forever at the
barrier on line 84 — the rendezvous partner no longer exists. -/
theorem emit_blocked_state (fmt2 : LogRecord → String)
    (fails2 : LogRecord → Bool) (hc : Handler) (r : LogRecord)
    (hsync : hc.syncBackgroundFlush = true) (hbg : hc.bgAlive = false)
    (htg : hc.target = none) :
    ∃ s : Handler,
      MemoryDelayHandler_emit fmt2 fails2 hc r = EmitOutcome.blockForever s
      ∧ s.buffer = hc.buffer ++ [r] := by
  unfold MemoryDelayHandler_emit
  dsimp only
  split
  · simp only [flush_target_none, htg, hsync, hbg]
    exact ⟨_, rfl, rfl⟩
  · simp only [hsync, hbg]
    exact ⟨_, rfl, rfl⟩

/-- C6 counterexample: the claim says every post-close `emit` is rejected by
signaling a misuse error, but on a concretely closed handler the call
raises nothing and does not return either — it blocks forever at the
rendezvous barrier, with the record left in the buffer of a handler whose
target is gone. -/
theorem C6_counterexample_no_misuse_error :
    (MemoryDelayHandler_emit fmtMsg noFail
      (MemoryDelayHandler_close fmtMsg noFail hTwo) recC).isErr = false
    ∧ (MemoryDelayHandler_emit fmtMsg noFail
      (MemoryDelayHandler_close fmtMsg noFail hTwo) recC).isRet = false := by
  exact ⟨rfl, rfl⟩

/-- C6 (amended): a `record()`/`emit()` call after `close()` signals no
error at all; the record is appended to the buffer (where it can never be
delivered — the target is gone) and, because `close` left
`_sync_backgroud_flush` set and the background thread terminated, the call
then waits on the two-party barrier forever: it neither returns nor raises,
for every handler and every record. -/
theorem C6_amended_emit_after_close_blocks (fmt fmt2 : LogRecord → String)
    (fails fails2 : LogRecord → Bool) (h : Handler) (r : LogRecord) :
    ∃ s : Handler,
      MemoryDelayHandler_emit fmt2 fails2
          (MemoryDelayHandler_close fmt fails h) r
        = EmitOutcome.blockForever s
      ∧ s.buffer = (MemoryDelayHandler_close fmt fails h).buffer ++ [r] := by
  obtain ⟨hsync, hbg, htg, hcl⟩ := close_flags fmt fails h
  exact emit_blocked_state fmt2 fails2 (MemoryDelayHandler_close fmt fails h)
    r hsync hbg htg

/-! C5 and C8 — the background delay task, in the quiescent model. -/

/-- With `_delay = None`, an `emit` step never hands the background phase a
finite deadline: the step either performs a producer-side flush (and resets
the phase to the wait on line 174) or extends the buffer, putting the
background thread into `Event.wait(None)`, which never times out. Any flush
it appends is a producer flush. -/
theorem doEmit_preserves_noDelay (t : Int) (r : LogRecord) (s : SchedState)
    (hd : s.delay = none)
    (hbg : s.bg = BgPhase.waitNewEmit ∨ s.bg = BgPhase.waitDelay none)
    (hfl : ∀ f ∈ s.flushes, f.fromBg = false) :
    (doEmit t r s).delay = none
    ∧ ((doEmit t r s).bg = BgPhase.waitNewEmit
        ∨ (doEmit t r s).bg = BgPhase.waitDelay none)
    ∧ (∀ f ∈ (doEmit t r s).flushes, f.fromBg = false) := by
  unfold doEmit
  dsimp only
  split
  · refine ⟨hd, Or.inl rfl, ?_⟩
    intro f hf
    simp only [List.mem_append, List.mem_singleton] at hf
    rcases hf with hf | rfl
    · exact hfl f hf
    · rfl
  · refine ⟨hd, ?_, hfl⟩
    rcases hbg with hbg | hbg <;> simp [hbg, hd]

/-- With `_delay = None` no run of the quiescent model ever contains a
background-thread flush: the timeout branch of lines 177-189 is
unreachable because `self._event_delay_flush.wait(None)` only returns when
the event is set, which leads to the rendezvous path, never to a flush. -/
theorem sched_no_bg_flush (fuel : Nat) (emits : List (Int × LogRecord))
    (s : SchedState) (hd : s.delay = none)
    (hbg : s.bg = BgPhase.waitNewEmit ∨ s.bg = BgPhase.waitDelay none)
    (hfl : ∀ f ∈ s.flushes, f.fromBg = false) :
    ∀ f ∈ (sched fuel emits s).flushes, f.fromBg = false := by
  induction fuel generalizing emits s with
  | zero =>
    intro f hf
    exact hfl f hf
  | succ n ih =>
    rcases emits with _ | ⟨⟨t, r⟩, rest⟩
    · rcases hbg with hbg | hbg <;> simp only [sched, hbg] <;> exact hfl
    · obtain ⟨hd2, hbg2, hfl2⟩ := doEmit_preserves_noDelay t r s hd hbg hfl
      rcases hbg with hbg | hbg <;> simp only [sched, hbg] <;>
        exact ih rest (doEmit t r s) hd2 hbg2 hfl2

/-- C5 counterexample: the claim says no background task is started when
the delay is None, but line 65 of `__init__` starts
`_thread_auto_flush_buffer` unconditionally — also for `delay=None`. -/
theorem C5_counterexample_thread_always_started :
    ∃ h : Handler,
      MemoryDelayHandler_init 4 none logging_ERROR none true = Except.ok h
      ∧ h.threadStarted = true := by
  exact ⟨_, rfl, rfl⟩

/-- C5 (amended): when the handler is constructed with `delay = None` the
delay-based trigger is disabled — in any quiescent run, every flush is a
synchronous producer flush (capacity or severity trigger), never one from
the background thread — but the background thread is nonetheless started at
construction; its loop simply never reaches the timeout-flush branch. -/
theorem C5_amended_delay_none_flushes (c : Int) (fl : Nat) (tg : Option Target) (foc : Bool)
    (h : Handler)
    (hinit : MemoryDelayHandler_init c none fl tg foc = Except.ok h)
    (fuel : Nat) (emits : List (Int × LogRecord)) :
    h.threadStarted = true
    ∧ ∀ f ∈ (sched fuel emits (toSchedState h)).flushes, f.fromBg = false := by
  have hh : MemoryDelayHandler_init c none fl tg foc = Except.ok
      { capacity := c, flushLevel := fl, target := tg, flushOnClose := foc,
        delay := none, buffer := [], append_buffer := false,
        threadStarted := true, eventNewEmit := false, eventDelayFlush := false,
        syncBackgroundFlush := false, threadClosing := false,
        bgAlive := true } := rfl
  rw [hh] at hinit
  simp only [Except.ok.injEq] at hinit
  subst hinit
  refine ⟨rfl, ?_⟩
  exact sched_no_bg_flush fuel emits _ rfl (Or.inl rfl) (by intro f hf; simp [toSchedState] at hf)

/-- C5 witness: the amended theorem applied to the concrete no-delay
handler `hNoDelay` and a two-record trace. -/
theorem C5_amended_delay_none_flushes_witness :
    hNoDelay.threadStarted = true
    ∧ ∀ f ∈ (sched 5 [(0, recA), (1, recB)]
        (toSchedState hNoDelay)).flushes, f.fromBg = false :=
  C5_amended_delay_none_flushes 4 logging_ERROR none true hNoDelay rfl 5 [(0, recA), (1, recB)]

/-- With the background thread back at the wait on line 174 and no emits
left, the quiescent system is idle: nothing further happens. -/
theorem sched_idle (n : Nat) (s : SchedState)
    (hbg : s.bg = BgPhase.waitNewEmit) :
    sched n [] s = s := by
  cases n with
  | zero => rfl
  | succ m => simp [sched, hbg]

/-- The delay window, once opened with deadline `dl`, is not restarted by
further emits: any number of later records arriving strictly before `dl`
(none reaching the capacity or severity trigger) only extend the buffer,
and the single background flush at `dl` carries them all, in arrival
order. -/
theorem sched_window (emits : List (Int × LogRecord)) (n : Nat)
    (s : SchedState) (dl : Int)
    (hbg : s.bg = BgPhase.waitDelay (some dl))
    (hbuf : 1 ≤ s.buffer.length)
    (htimes : ∀ p ∈ emits, p.1 < dl)
    (hlev : ∀ p ∈ emits, p.2.levelno < s.flushLevel)
    (hcap : (s.buffer.length : Int) + emits.length < s.capacity)
    (hfuel : emits.length + 2 ≤ n) :
    (sched n emits s).flushes = s.flushes ++
      [{ time := dl, fromBg := true,
         records := s.buffer ++ emits.map Prod.snd }] := by
  induction emits generalizing s n with
  | nil =>
    obtain ⟨m, rfl⟩ : ∃ m, n = m + 1 := ⟨n - 1, by omega⟩
    have h1 : sched (m + 1) [] s = sched m [] (fireDeadline dl s) := by
      simp [sched, hbg]
    have h2 : fireDeadline dl s =
        { s with buffer := [], eventNewEmit := false,
                 bg := BgPhase.waitNewEmit,
                 flushes := s.flushes ++
                   [{ time := dl, fromBg := true, records := s.buffer }] } := by
      unfold fireDeadline
      rw [if_pos hbuf]
    rw [h1, h2, sched_idle m _ rfl]
    simp
  | cons p rest ih =>
    obtain ⟨t, r⟩ := p
    obtain ⟨m, rfl⟩ : ∃ m, n = m + 1 := ⟨n - 1, by omega⟩
    have ht : t < dl := htimes (t, r) (List.mem_cons_self _ _)
    have h1 : sched (m + 1) ((t, r) :: rest) s =
        sched m rest (doEmit t r s) := by
      simp [sched, hbg, not_le.mpr ht]
    have hlen : ((s.buffer ++ [r]).length : Int) = s.buffer.length + 1 := by
      simp
    have hnotrig : ¬(s.capacity ≤ ((s.buffer ++ [r]).length : Int)
        ∨ s.flushLevel ≤ r.levelno) := by
      push_neg
      constructor
      · rw [hlen]
        have hr : (rest.length : Int) ≥ 0 := by positivity
        simp only [List.length_cons] at hcap
        push_cast at hcap
        omega
      · exact hlev (t, r) (List.mem_cons_self _ _)
    have h2 : doEmit t r s =
        { s with buffer := s.buffer ++ [r], eventNewEmit := true } := by
      unfold doEmit
      dsimp only
      rw [if_neg hnotrig, hbg]
    rw [h1, h2]
    have hres := ih m
      { s with buffer := s.buffer ++ [r], eventNewEmit := true }
      hbg
      (by simp)
      (fun p hp => htimes p (List.mem_cons_of_mem _ hp))
      (fun p hp => hlev p (List.mem_cons_of_mem _ hp))
      (by
        simp only [List.length_append, List.length_cons,
          List.length_nil] at hcap ⊢
        push_cast at hcap ⊢
        omega)
      (by simp only [List.length_cons] at hfuel; omega)
    rw [hres]
    simp

/-- C8: the delay window is anchored to the first record after the buffer
becomes non-empty. For a handler built with delay D, a first record at time
t0 and any further records strictly inside the window (t0, t0 + D), with
every severity below the flush level and the total count below capacity,
the quiescent run delivers exactly one flush: a background flush at exactly
t0 + D — D after the first record, not after the later ones — containing
all the records of the window in order. -/
theorem C8_delay_window_anchored (c : Int) (fl : Nat) (tg : Option Target) (foc : Bool)
    (D : Int) (hD : 0 < D) (h : Handler)
    (hinit : MemoryDelayHandler_init c (some D) fl tg foc = Except.ok h)
    (t0 : Int) (r0 : LogRecord) (rest : List (Int × LogRecord))
    (hr0lev : r0.levelno < fl)
    (hlev : ∀ p ∈ rest, p.2.levelno < fl)
    (htimes : ∀ p ∈ rest, t0 < p.1 ∧ p.1 < t0 + D)
    (hcap : (1 : Int) + rest.length < c) :
    (sched (rest.length + 3) ((t0, r0) :: rest) (toSchedState h)).flushes
      = [{ time := t0 + D, fromBg := true,
           records := r0 :: rest.map Prod.snd }] := by
  have hnd : ¬ D < 0 := by omega
  have hh : MemoryDelayHandler_init c (some D) fl tg foc = Except.ok
      { capacity := c, flushLevel := fl, target := tg, flushOnClose := foc,
        delay := some D, buffer := [], append_buffer := false,
        threadStarted := true, eventNewEmit := false,
        eventDelayFlush := false, syncBackgroundFlush := false,
        threadClosing := false, bgAlive := true } := by
    simp [MemoryDelayHandler_init, hnd]
  rw [hh] at hinit
  simp only [Except.ok.injEq] at hinit
  subst hinit
  have h1c : (1 : Int) < c := by
    have : (0 : Int) ≤ rest.length := by positivity
    omega
  have hs0 : toSchedState
      { capacity := c, flushLevel := fl, target := tg, flushOnClose := foc,
        delay := some D, buffer := [], append_buffer := false,
        threadStarted := true, eventNewEmit := false,
        eventDelayFlush := false, syncBackgroundFlush := false,
        threadClosing := false, bgAlive := true } =
      { capacity := c, flushLevel := fl, delay := some D, buffer := [],
        eventNewEmit := false, bg := BgPhase.waitNewEmit,
        flushes := [] } := rfl
  rw [hs0]
  have h1 : sched (rest.length + 3) ((t0, r0) :: rest)
      { capacity := c, flushLevel := fl, delay := some D, buffer := [],
        eventNewEmit := false, bg := BgPhase.waitNewEmit, flushes := [] } =
      sched (rest.length + 2) rest (doEmit t0 r0
        { capacity := c, flushLevel := fl, delay := some D, buffer := [],
          eventNewEmit := false, bg := BgPhase.waitNewEmit,
          flushes := [] }) := by
    simp [sched]
  have hnotrig : ¬((c : Int) ≤ ((([] : List LogRecord) ++ [r0]).length : Int)
      ∨ fl ≤ r0.levelno) := by
    push_neg
    refine ⟨by simp; omega, hr0lev⟩
  have h2 : doEmit t0 r0
      { capacity := c, flushLevel := fl, delay := some D, buffer := [],
        eventNewEmit := false, bg := BgPhase.waitNewEmit, flushes := [] } =
      { capacity := c, flushLevel := fl, delay := some D, buffer := [r0],
        eventNewEmit := true, bg := BgPhase.waitDelay (some (t0 + D)),
        flushes := [] } := by
    unfold doEmit
    dsimp only
    rw [if_neg hnotrig]
    simp
  rw [h1, h2]
  have hres := sched_window rest (rest.length + 2)
    { capacity := c, flushLevel := fl, delay := some D, buffer := [r0],
      eventNewEmit := true, bg := BgPhase.waitDelay (some (t0 + D)),
      flushes := [] }
    (t0 + D) rfl (by simp)
    (fun p hp => (htimes p hp).2)
    (fun p hp => hlev p hp)
    (by simp; omega)
    (by omega)
  rw [hres]
  simp

/-- C8 witness: the anchoring theorem applied to the concrete handler
`hDelay2` (capacity 3, delay 2) with records at times 0 and 1 = 0 + 0.5 D:
one flush at time 2 = t0 + D with both records. -/
theorem C8_delay_window_anchored_witness :
    (sched 4 [(0, recA), (1, recB)] (toSchedState hDelay2)).flushes
      = [{ time := 2, fromBg := true, records := [recA, recB] }] := by
  have hres := C8_delay_window_anchored 3 logging_ERROR none true 2
    (by decide) hDelay2 rfl 0 recA [(1, recB)] (by decide) (by decide)
    (by decide) (by decide)
  simpa using hres
